import Mathlib

/-
Verification of the dorest hierarchical namespace resolution and dispatch engine.

This file is a shallow embedding of the dorest source (src/dorest/*.py) in Lean 4.
Python dotted paths are modelled as lists of identifier segments (the source splits
path strings on '.' and joins prefixes back; on the segment-list representation the
split/join pair is the identity).  Python exceptions are modelled by the `PyErr`
type; fallible code returns `Except PyErr`.  Module environments are modelled as
functions from a dotted path (segment list) to an optional module record: `none`
means `importlib.import_module` raises `ModuleNotFoundError` for that path.
-/

/-- Python exception values that the embedded dorest code can raise.
Each constructor carries the message (or key) the source produces. -/
inductive PyErr where
  | moduleNotFoundError (msg : String)
  | typeError (msg : String)
  | attributeError (msg : String)
  | keyError (key : String)
  | indexError
  | methodNotAllowed (method : String)
  | unsupportedFileTypeError (path : String)
  | recursionError
  deriving DecidableEq, Repr

/-- Python s.join(pieces) for a separator s (used by the source as '.'.join and '/'.join). -/
def joinWith (sep : String) : List String → String
  | [] => ""
  | [a] => a
  | a :: b :: rest => a ++ sep ++ joinWith sep (b :: rest)

/-- Python range(n - 1, 0, -1): the indices n-1, n-2, ..., 1.  Both ancestor
walks (interfaces.resolve line 110, resources.resolve line 66) iterate over it. -/
def pyRangeRev (n : Nat) : List Nat :=
  (List.range' 1 (n - 1)).reverse

/-- ASCII lowering of one character (HTTP method names are ASCII). -/
def pyLowerChar (c : Char) : Char :=
  if c.toNat ≥ 65 && c.toNat ≤ 90 then Char.ofNat (c.toNat + 32) else c

/-- Python method.lower() on the (ASCII) HTTP method names the dispatch code
lowercases before indexing a redirect dict. -/
def pyLower (s : String) : String :=
  String.mk (s.data.map pyLowerChar)

/-- Python startswith on character lists (first argument: the haystack). -/
def startsWithL : List Char → List Char → Bool
  | _, [] => true
  | [], _ :: _ => false
  | a :: as, b :: bs => a == b && startsWithL as bs

/-- Substring containment on character lists: does `needle` occur in `hay`. -/
def containsL (hay needle : List Char) : Bool :=
  match hay with
  | [] => startsWithL [] needle
  | _ :: t => startsWithL hay needle || containsL t needle

/-- Python's `needle in hay` on strings (substring containment). -/
def pyStrIn (needle hay : String) : Bool :=
  containsL hay.data needle.data

/-- Python's endswith (used for the $-anchored extension regexes of conf.py). -/
def strEndsWith (s suffix : String) : Bool :=
  startsWithL s.data.reverse suffix.data.reverse

/-- Python's s[:-n] slicing on (ASCII) file names: drop the last n characters. -/
def strDropRight (s : String) (n : Nat) : String :=
  String.mk (s.data.take (s.data.length - n))

/-- Loop body of the ancestor-binding walk shared by interfaces.resolve
(src/dorest/interfaces.py lines 107-115) and resources.resolve
(src/dorest/resources.py lines 62-71):

    depth, target = None, None
    for i in range(len(path) - 1, 0, -1):
        active_path = '.'.join(path[:i])
        module = getattr(sys.modules, active_path, importlib.import_module(active_path))
        if hasattr(module, ATTR):
            depth, target = i, getattr(module, ATTR)

`env p = none` models an ancestor prefix that fails to import (the loop does not
catch that `ModuleNotFoundError`, so it propagates); `env p = some none` models an
importable module without the binding attribute; `env p = some (some r)` models a
module carrying binding record `r`.  The accumulator is overwritten on every hit. -/
def ancestorScanGo {α : Type} (env : List String → Option (Option α)) (path : List String) :
    List Nat → Option (Nat × α) → Except PyErr (Option (Nat × α))
  | [], acc => .ok acc
  | i :: rest, acc =>
    match env (path.take i) with
    | none => .error (.moduleNotFoundError ("No module named " ++ joinWith "." (path.take i)))
    | some none => ancestorScanGo env path rest acc
    | some (some r) => ancestorScanGo env path rest (some (i, r))

/-- The full ancestor-binding walk: run the loop over range(len(path) - 1, 0, -1)
with the accumulator initialised to `(None, None)`. -/
def ancestorScan {α : Type} (env : List String → Option (Option α)) (path : List String) :
    Except PyErr (Option (Nat × α)) :=
  ancestorScanGo env path (pyRangeRev path.length) none

namespace Interfaces

/-- The record stored by interfaces.bind as the module attribute named __interface:
a dict with the backend package module (we keep its __name__) and the driver name. -/
structure InterfaceRec where
  packageName : String
  driver : String
  deriving DecidableEq, Repr

/-- interfaces.bind (src/dorest/interfaces.py lines 74-90).  The state transition on
the target module's __interface attribute slot: the attribute is set unconditionally
(setattr), so any previous record is replaced.  `locatedPackage` is the result of
_locate_package, `backendIsName` models isinstance(backend, str) (a bare dotted name
rather than a module object), and the name qualification mirrors lines 87-88. -/
def bind (locatedPackage : Option String) (bypassPackage : Bool) (backendIsName : Bool)
    (backend : String) (driver : String) (_current : Option InterfaceRec) :
    Option InterfaceRec :=
  let qualified :=
    match locatedPackage with
    | some pkg => if backendIsName && !bypassPackage then pkg ++ "." ++ backend else backend
    | none => backend
  some { packageName := qualified, driver := driver }

/-- interfaces.resolve (src/dorest/interfaces.py lines 93-118) on the caller's
already-derived dotted path.  After the ancestor walk, the source evaluates

    return getattr(importlib.import_module(
        '%s.%s.%s' % (target['package'].__name__, target['driver'], '.'.join(path[depth:-1]))),
        path[-1])

When no ancestor carried the binding, `target` is still None and subscripting it
(`target['package']`) raises TypeError.  The final import-and-getattr is delegated
to `loader` (the importlib/getattr collaborator), applied to the computed module
path string and the caller's final segment. -/
def resolve {β : Type} (env : List String → Option (Option InterfaceRec))
    (loader : String → String → Except PyErr β) (path : List String) : Except PyErr β :=
  match ancestorScan env path with
  | .error e => .error e
  | .ok none => .error (.typeError "NoneType object is not subscriptable")
  | .ok (some (depth, target)) =>
    loader (target.packageName ++ "." ++ target.driver ++ "." ++
            joinWith "." ((path.drop depth).dropLast))
           (path.getLastD "")

end Interfaces

namespace Resources

/-- The record stored by resources.bind as the attribute __resources: the resource
root module (we keep os.path.dirname of its __file__, the only field resolve reads). -/
structure ResourceRec where
  dirname : String
  deriving DecidableEq, Repr

/-- resources.bind (src/dorest/resources.py lines 34-45): setattr of the __resources
attribute, unconditional, so any previous record is replaced. -/
def bind (package : ResourceRec) (_current : Option ResourceRec) : Option ResourceRec :=
  some package

/-- resources.resolve (src/dorest/resources.py lines 48-77) on the caller's
already-derived dotted path (`levels` in the source).  `objRepr` is str(obj), used in
the error message.  After the ancestor walk the source evaluates

    if res_module is None:
        raise ModuleNotFoundError("Cannot locate resource directory of '%s'" % str(obj))
    return '%s/%s%s' % (os.path.dirname(res_module.__file__), '/'.join(levels[res_level:]),
                        '/%s' % path if path is not None else '')
-/
def resolve (env : List String → Option (Option ResourceRec)) (objRepr : String)
    (path : List String) (sub : Option String) : Except PyErr String :=
  match ancestorScan env path with
  | .error e => .error e
  | .ok none => .error (.moduleNotFoundError ("Cannot locate resource directory of " ++ objRepr))
  | .ok (some (resLevel, resModule)) =>
    .ok (resModule.dirname ++ "/" ++ joinWith "/" (path.drop resLevel) ++
         (match sub with | some p => "/" ++ p | none => ""))

end Resources

namespace Struct

/-- The meta dict attached to an endpoint function by the dorest.decorators.endpoint
decorator (src/dorest/decorators.py lines 23-36): the accepted HTTP methods and the
default flag are the fields _get_endpoint reads. -/
structure EpMeta where
  methods : List String
  default : Bool
  deriving DecidableEq, Repr

/-- A function-valued module attribute.  `name` is the attribute name, `moduleName`
is the function's __module__ (as a segment list), and `meta` is its meta attribute
when the endpoint decorator set one (hasattr(obj, 'meta')). -/
structure EFunc where
  name : String
  moduleName : List String
  meta : Option EpMeta
  deriving DecidableEq, Repr

/-- A redirect target (a value of the per-method redirect dict): either an endpoint
function (inspect.isfunction is true) or a module, of which _get_endpoint only uses
the __name__ (its dotted path). -/
inductive RTarget where
  | fn (f : EFunc)
  | container (name : List String)
  deriving DecidableEq, Repr

/-- A loaded module as seen by struct._get_endpoint: its __name__, its
function-valued attributes in dir() order, and the per-method redirect dict stored
under the attribute named by Glossary.REDIRECT.value (none when the attribute is
absent, in which case getattr raises AttributeError). -/
structure SModule where
  name : List String
  attrs : List EFunc
  redirectTable : Option (String → Option RTarget)

/-- Python getattr(module, name, None) restricted to function-valued attributes. -/
def getattrFn (m : SModule) (s : String) : Option EFunc :=
  m.attrs.find? (fun f => f.name == s)

/-- The comprehension of src/dorest/struct.py lines 57-58: the module's directly
defined endpoint functions, i.e. attributes with a meta attribute whose __module__
equals the module's __name__. -/
def directEndpoints (m : SModule) : List EFunc :=
  m.attrs.filter (fun f => f.meta.isSome && f.moduleName == m.name)

/-- The loop of src/dorest/struct.py lines 57-64 over the directly defined endpoint
functions: return the first function whose meta dict has default true immediately;
otherwise remember the function and, after the loop, return the last one seen (none
when the list is empty).  The `none` meta branch is unreachable: `directEndpoints`
only yields functions with a meta attribute. -/
def scanEndpointsGo : List EFunc → Option EFunc → Option EFunc
  | [], last => last
  | f :: rest, last =>
    match f.meta with
    | some mt => if mt.default then some f else scanEndpointsGo rest (some f)
    | none => scanEndpointsGo rest last

/-- Body of the except ModuleNotFoundError clause of _get_endpoint
(src/dorest/struct.py lines 74-87), after the containing module has been imported:

    obj = getattr(imported_module, target_function, None)
    if inspect.isfunction(obj) and hasattr(obj, 'meta'):
        if method in obj.meta['methods']:
            return obj, None
        else:
            raise MethodNotAllowed(method)
    else:
        raise AttributeError("Could not find endpoint ...")
-/
def exceptBody (m : SModule) (targetFunction : String) (method : String) :
    Except PyErr EFunc :=
  match getattrFn m targetFunction with
  | some f =>
    match f.meta with
    | some mt =>
      if method ∈ mt.methods then .ok f else .error (.methodNotAllowed method)
    | none =>
      .error (.attributeError ("Could not find endpoint " ++ targetFunction ++
                               " with HTTP request method " ++ method))
  | none =>
    .error (.attributeError ("Could not find endpoint " ++ targetFunction ++
                             " with HTTP request method " ++ method))

/-- struct._get_endpoint (src/dorest/struct.py lines 37-87).  The try clause imports
`branch` as a module, scans its directly defined endpoint functions, and otherwise
chases the module's redirect entry for the request method (a function target is
returned, a module target causes recursion on that module's __name__).  Any
ModuleNotFoundError raised inside the try clause - the import of `branch` itself or
a deeper import inside the recursion - is caught and the except clause reinterprets
the final segment of `branch` as a function name inside the parent module (or inside
`moduleArg` when the caller passed a module directly).  The Python recursion has no
bound, so it is given explicit fuel; exhausted fuel models Python's RecursionError. -/
def getEndpoint (env : List String → Option SModule) :
    Nat → String → List String → Option SModule → Except PyErr EFunc
  | 0, _, _, _ => .error .recursionError
  | fuel + 1, method, branch, moduleArg =>
    let tryResult : Except PyErr EFunc :=
      match env branch with
      | none => .error (.moduleNotFoundError ("No module named " ++ joinWith "." branch))
      | some m =>
        match scanEndpointsGo (directEndpoints m) none with
        | some f => .ok f
        | none =>
          match m.redirectTable with
          | none => .error (.attributeError "module object has no redirect attribute")
          | some tbl =>
            match tbl (pyLower method) with
            | none => .error (.keyError (pyLower method))
            | some (.fn g) => .ok g
            | some (.container c) => getEndpoint env fuel method c none
    match tryResult with
    | .error (.moduleNotFoundError _) =>
      let targetFunction := branch.getLastD ""
      match moduleArg with
      | some m => exceptBody m targetFunction method
      | none =>
        match env branch.dropLast with
        | none => .error (.moduleNotFoundError ("No module named " ++
                                                joinWith "." branch.dropLast))
        | some m => exceptBody m targetFunction method
    | other => other

/-- struct.redirect (src/dorest/struct.py lines 244-263).  The state transition on
the redirecting module's redirect attribute slot:

    [setattr(caller, Glossary.REDIRECT.value,
             {**getattr(caller, Glossary.REDIRECT.value, {}), **{method.lower(): target}})
     for method in methods]

Each iteration re-reads the current attribute (an empty dict when absent), merges in
one lowercased method key, and stores the result; the dict is modelled as a function
from method name to optional target. -/
def redirect (methods : List String) (target : RTarget)
    (currentAttr : Option (String → Option RTarget)) :
    Option (String → Option RTarget) :=
  methods.foldl
    (fun attr method =>
      some (fun k => if k = pyLower method then some target
                     else (attr.getD (fun _ => none)) k))
    currentAttr

end Struct

namespace Conf

/-- A parsed configuration value: a Python dict (node) or a non-container leaf.
The process-wide tree `_conf` (a dict keyed by file base name) is itself a node. -/
inductive Tree where
  | leaf (s : String)
  | node (children : List (String × Tree))

/-- Python subscripting tree[key] with a string key, as performed by conf._traverse:
on a dict a missing key raises KeyError; on a non-container value (a parsed leaf,
e.g. a string) string subscripting raises TypeError. -/
def pyIndex : Tree → String → Except PyErr Tree
  | .node kvs, key =>
    match kvs.lookup key with
    | some t => .ok t
    | none => .error (.keyError key)
  | .leaf _, _ => .error (.typeError "string indices must be integers")

/-- conf._traverse (src/dorest/conf.py lines 60-70):

    if len(active_branch) > 1:
        return _traverse(tree[active_branch[0]], active_branch[1:])
    else:
        return tree[active_branch[0]]

On an empty segment list, active_branch[0] raises IndexError. -/
def traverse : Tree → List String → Except PyErr Tree
  | _, [] => .error .indexError
  | tree, [a] => pyIndex tree a
  | tree, a :: b :: rest => (pyIndex tree a).bind (fun t => traverse t (b :: rest))

/-- conf.resolve (src/dorest/conf.py lines 101-115) in the global case (at = None):
traverse the process-wide tree along the dotted branch, or return the whole tree
when no branch is given.  The branch string is modelled as its segment list. -/
def resolve (conf : Tree) (branch : Option (List String)) : Except PyErr Tree :=
  match branch with
  | some segs => traverse conf segs
  | none => .ok conf

/-- Modelled from the spec (section 4.5 `lookup`): descend the tree one segment at a
time, succeeding when every segment is present and failing when a segment is absent
or a non-container value is indexed further.  Used as the specification-side
definition that `traverse` is compared against. -/
def lookupSpec : Tree → List String → Option Tree
  | t, [] => some t
  | .node kvs, a :: rest =>
    match kvs.lookup a with
    | some t => lookupSpec t rest
    | none => none
  | .leaf _, _ :: _ => none

/-- The recognized configuration file extensions (conf.SUPPORTED_FILE_TYPES) as a
suffix test; the source tests re.search(r'\.(yml|yaml|json)$', name). -/
def hasSupportedExt (name : String) : Bool :=
  strEndsWith name ".yml" || strEndsWith name ".yaml" || strEndsWith name ".json"

/-- The key computation of conf.load_dir: re.sub(r'\.(yml|yaml|json)$', '', file)
strips a final recognized extension from the file name. -/
def stripExt (name : String) : String :=
  if strEndsWith name ".yaml" then strDropRight name 5
  else if strEndsWith name ".yml" then strDropRight name 4
  else if strEndsWith name ".json" then strDropRight name 5
  else name

/-- A directory entry as seen by conf.load_dir through os.listdir: its file name,
whether os.path.isfile holds, and (for files) the file's content. -/
structure DirEntry where
  name : String
  isFile : Bool
  content : String

/-- conf._load (src/dorest/conf.py lines 43-57):

    if re.search(r'\.(yml|yaml)$', path):
        return yaml.safe_load(open(path, 'r'))
    elif re.search(r'\.json$', path):
        return json.load(path)
    else:
        raise UnsupportedFileTypeError(path, SUPPORTED_FILE_TYPES)

The YAML parser is an external collaborator, passed in as `yamlParse` applied to the
file's content.  In the JSON branch the source passes the path STRING itself to
json.load, whose fp argument must be a file object: json.load immediately calls
fp.read(), and a str has no read attribute, so the call raises AttributeError
instead of parsing the file. -/
def load (yamlParse : String → Except PyErr Tree) (path : String) (content : String) :
    Except PyErr Tree :=
  if strEndsWith path ".yml" || strEndsWith path ".yaml" then
    yamlParse content
  else if strEndsWith path ".json" then
    .error (.attributeError "str object has no attribute read")
  else
    .error (.unsupportedFileTypeError path)

/-- conf.load_dir (src/dorest/conf.py lines 91-98): the dict comprehension

    {re.sub(ext_re, '', file): _load(join(path, file)) for file in listdir(path)
     if isfile(join(path, file)) and re.search(ext_re, file)}

keyed by base name over the regular files with a recognized extension (join(path,
file) has the same extension as file, so `load` is applied to the entry's name and
content).  The dict is modelled as the association list in listdir order; an
exception from _load aborts the whole comprehension. -/
def loadDirEntries (yamlParse : String → Except PyErr Tree) (entries : List DirEntry) :
    Except PyErr (List (String × Tree)) :=
  (entries.filter (fun e => e.isFile && hasSupportedExt e.name)).mapM
    (fun e => (load yamlParse e.name e.content).map (fun t => (stripExt e.name, t)))

end Conf

namespace Packages

/-- The record stored by packages.link as the attribute __package
(src/dorest/packages.py lines 110-113).  The Python keyword argument `private` is
renamed `privateDir` (private is a Lean keyword). -/
structure PackageRec where
  bound : Bool
  path : Option String
  struct : Option String
  resources : Option String
  conf : Option String
  privateDir : Option String
  templates : Option String
  deriving DecidableEq, Repr

/-- packages.link (src/dorest/packages.py lines 105-113).  The state transition on
the module's __package attribute slot:

    if not hasattr(package, '__package'):
        setattr(package, '__package', {'bound': False, ...})

The record is only stored when the attribute is absent; when one is already present
the call leaves it untouched. -/
def link (current : Option PackageRec) (path struct resources conf privateDir templates :
    Option String) : Option PackageRec :=
  match current with
  | some r => some r
  | none => some { bound := false, path := path, struct := struct, resources := resources,
                   conf := conf, privateDir := privateDir, templates := templates }

/-- The package-discovery loop of packages.bind (src/dorest/packages.py lines
50-56), over the (root, files) pairs that os.walk yields top-down:

    package_root_dirs = []
    for root, dirs, files in os.walk(target_dir):
        if all(root not in prd for prd in package_root_dirs):
            if 'package.py' in files:
                package_root_dirs.append(root)

The guard tests whether the current root is a substring of each already-collected
package root (`root not in prd`), with the operands in that order. -/
def packageRootDirs (walked : List (String × List String)) : List String :=
  walked.foldl
    (fun acc rf =>
      if acc.all (fun prd => !(pyStrIn rf.1 prd)) then
        if rf.2.contains "package.py" then acc ++ [rf.1] else acc
      else acc)
    []

end Packages

/-
Concrete module environments and inputs, used to evaluate the definitions above on
specific configurations (binding layouts, endpoint trees, directories).
-/

/-- Backend-binding environment with bindings on both ancestors of q1.q2.q3:
the shallow ancestor q1 carries record bA/dA, the deeper ancestor q1.q2 carries
record bB/dB. -/
def ienvTwo : List String → Option (Option Interfaces.InterfaceRec) := fun p =>
  if p = ["q1"] then some (some { packageName := "bA", driver := "dA" })
  else if p = ["q1", "q2"] then some (some { packageName := "bB", driver := "dB" })
  else none

/-- Resource-binding environment with bindings on both ancestors of q1.q2.q3. -/
def renvTwo : List String → Option (Option Resources.ResourceRec) := fun p =>
  if p = ["q1"] then some (some { dirname := "/srv/resA" })
  else if p = ["q1", "q2"] then some (some { dirname := "/srv/resB" })
  else none

/-- Backend-binding environment for the gen.db scenario: the generic container
gen.db carries the backend package named db with driver dba; the other ancestors of
gen.db.connector.insert import fine but carry no binding. -/
def ienvGen : List String → Option (Option Interfaces.InterfaceRec) := fun p =>
  if p = ["gen", "db"] then some (some { packageName := "db", driver := "dba" })
  else if p = ["gen"] then some none
  else if p = ["gen", "db", "connector"] then some none
  else none

/-- Environment in which every proper ancestor of p1.p2.p3 imports fine but carries
no backend binding. -/
def ienvNone : List String → Option (Option Interfaces.InterfaceRec) := fun p =>
  if p = ["p1"] then some none
  else if p = ["p1", "p2"] then some none
  else none

/-- Environment in which every proper ancestor of p1.p2.p3 imports fine but carries
no resource binding. -/
def renvNone : List String → Option (Option Resources.ResourceRec) := fun p =>
  if p = ["p1"] then some none
  else if p = ["p1", "p2"] then some none
  else none

/-- A default endpoint function f defined in container t1. -/
def fDefault : Struct.EFunc :=
  { name := "f", moduleName := ["t1"], meta := some { methods := ["GET"], default := true } }

/-- The redirect target container t1, whose unique directly defined endpoint is
`fDefault` (marked default) and which has no redirect attribute of its own. -/
def mTarget : Struct.SModule :=
  { name := ["t1"], attrs := [fDefault], redirectTable := none }

/-- A redirecting container r1 defining zero endpoint functions, whose redirect
dict maps get to the container t1 and post to a plain function. -/
def gPlain : Struct.EFunc :=
  { name := "g", moduleName := ["x1"], meta := some { methods := ["POST"], default := false } }

/-- Redirect dict of the container r1. -/
def tblRedirz : String → Option Struct.RTarget := fun k =>
  if k = "get" then some (.container ["t1"])
  else if k = "post" then some (.fn gPlain)
  else none

/-- The redirecting container r1. -/
def mRedir : Struct.SModule :=
  { name := ["r1"], attrs := [], redirectTable := some tblRedirz }

/-- Module environment for the redirect-dispatch scenario. -/
def envRedir : List String → Option Struct.SModule := fun p =>
  if p = ["r1"] then some mRedir
  else if p = ["t1"] then some mTarget
  else none

/-- An endpoint function accepting only GET, defined in container p1.m1. -/
def fGetOnly : Struct.EFunc :=
  { name := "f", moduleName := ["p1", "m1"], meta := some { methods := ["GET"], default := false } }

/-- The container p1.m1 holding `fGetOnly`. -/
def mParent : Struct.SModule :=
  { name := ["p1", "m1"], attrs := [fGetOnly], redirectTable := none }

/-- Module environment for the method-gating scenario: p1.m1.f is not importable as
a module, its parent p1.m1 is. -/
def envGate : List String → Option Struct.SModule := fun p =>
  if p = ["p1", "m1"] then some mParent
  else none

/-- The configuration tree of a directory containing site.yaml with
greet: then message: Hello! (the dict conf._conf, keyed by file base name). -/
def siteTree : Conf.Tree :=
  .node [("site", .node [("greet", .node [("message", .leaf "Hello!")])])]

/-- A YAML parser stand-in that wraps the raw content in a leaf. -/
def yamlParseLeaf : String → Except PyErr Conf.Tree := fun s => .ok (.leaf s)

/-- A redirect table with a pre-existing entry for post. -/
def tblPre : String → Option Struct.RTarget := fun k =>
  if k = "post" then some (.fn gPlain) else none

/-- The backend module path as the spec words it (section 4.3): the resolved
backend container name, the driver name, and the caller path's segments strictly
between the binding's depth and the caller's final segment, dot-joined.  Used to
compare the path string interfaces.resolve builds against the spec's description. -/
def backendModulePathSpec (B D : String) (middle : List String) : String :=
  joinWith "." ([B, D] ++ middle)

/-
Theorems.  Helper lemmas first, then one theorem per claim (with witness or
counterexample theorems where required).
-/

/-- Scanning a stretch of indices whose modules import fine but carry no binding
leaves the accumulator unchanged. -/
theorem ancestorScanGo_allNone {α : Type} (env : List String → Option (Option α))
    (path : List String) (L : List Nat) (acc : Option (Nat × α))
    (h : ∀ i ∈ L, env (path.take i) = some none) :
    ancestorScanGo env path L acc = .ok acc := by
  induction L with
  | nil => rfl
  | cons i rest ih =>
    have hi := h i (by simp)
    simp only [ancestorScanGo, hi]
    exact ih (fun j hj => h j (by simp [hj]))

/-- Scanning importable indices never raises; it continues on the remaining indices
from some accumulator value. -/
theorem ancestorScanGo_append {α : Type} (env : List String → Option (Option α))
    (path : List String) (L1 L2 : List Nat) (acc : Option (Nat × α))
    (h : ∀ i ∈ L1, env (path.take i) ≠ none) :
    ∃ acc2, ancestorScanGo env path (L1 ++ L2) acc = ancestorScanGo env path L2 acc2 := by
  revert h
  induction L1 generalizing acc with
  | nil => exact fun _ => ⟨acc, rfl⟩
  | cons i rest ih =>
    intro h
    have hi := h i (by simp)
    cases hv : env (path.take i) with
    | none => exact absurd hv hi
    | some v =>
      have step : ancestorScanGo env path ((i :: rest) ++ L2) acc
          = ancestorScanGo env path (rest ++ L2)
              (match v with | none => acc | some r => some (i, r)) := by
        cases v <;> simp [ancestorScanGo, hv]
      rw [step]
      exact ih _ (fun j hj => h j (by simp [hj]))

/-- Running the walk over indices split as L1 ++ i :: L2 where every index of L1
imports, index i carries binding r, and every index of L2 imports without a binding,
ends with i's record: the later (shorter-prefix) hits would have overwritten it, but
there are none. -/
theorem ancestorScanGo_hit {α : Type} (env : List String → Option (Option α))
    (path : List String) (L1 L2 : List Nat) (i : Nat) (r : α) (acc : Option (Nat × α))
    (h1 : ∀ j ∈ L1, env (path.take j) ≠ none)
    (hi : env (path.take i) = some (some r))
    (h2 : ∀ j ∈ L2, env (path.take j) = some none) :
    ancestorScanGo env path (L1 ++ i :: L2) acc = .ok (some (i, r)) := by
  obtain ⟨acc2, hs⟩ := ancestorScanGo_append env path L1 (i :: L2) acc h1
  rw [hs]
  rw [show ancestorScanGo env path (i :: L2) acc2
        = ancestorScanGo env path L2 (some (i, r)) by simp [ancestorScanGo, hi]]
  exact ancestorScanGo_allNone env path L2 _ h2

/-- Decomposition of the walked index list range(n - 1, 0, -1) around a chosen
index a with 1 ≤ a < n: the indices above a (walked first), then a, then the
indices below a (walked last). -/
theorem pyRangeRev_split (n a : Nat) (ha1 : 1 ≤ a) (ha2 : a < n) :
    pyRangeRev n =
      (List.range' (a + 1) (n - 1 - a)).reverse ++ a :: (List.range' 1 (a - 1)).reverse := by
  unfold pyRangeRev
  have e1 : 1 + 1 * (a - 1) = a := by omega
  have e2 : (n - a) + (a - 1) = n - 1 := by omega
  have h1 : List.range' 1 (a - 1) ++ List.range' a (n - a) = List.range' 1 (n - 1) := by
    have h := List.range'_append 1 (a - 1) (n - a) 1
    rw [e1, e2] at h
    exact h
  have e3 : n - a = (n - a - 1) + 1 := by omega
  have h2 : List.range' a (n - a) = a :: List.range' (a + 1) (n - a - 1) := by
    conv_lhs => rw [e3]
    rw [List.range'_succ]
  have e4 : n - a - 1 = n - 1 - a := by omega
  rw [← h1, h2, e4]
  simp [List.reverse_append, List.reverse_cons, List.append_assoc]

/-- The ancestor walk returns the record of the shallowest importable-and-bound
ancestor when all deeper ancestors import fine and no shallower ancestor carries a
binding. -/
theorem ancestorScan_shallowest {α : Type} (env : List String → Option (Option α))
    (path : List String) (a : Nat) (r : α)
    (ha : 1 ≤ a) (han : a < path.length)
    (hr : env (path.take a) = some (some r))
    (hmin : ∀ j, 1 ≤ j → j < a → env (path.take j) = some none)
    (himp : ∀ j, a < j → j < path.length → env (path.take j) ≠ none) :
    ancestorScan env path = .ok (some (a, r)) := by
  unfold ancestorScan
  rw [pyRangeRev_split path.length a ha han]
  apply ancestorScanGo_hit
  · intro j hj
    rw [List.mem_reverse, List.mem_range'_1] at hj
    exact himp j (by omega) (by omega)
  · exact hr
  · intro j hj
    rw [List.mem_reverse, List.mem_range'_1] at hj
    exact hmin j hj.1 (by omega)

/-- C1: root-most ancestor precedence.  For a caller path with two bound ancestors,
the shallow one at prefix depth a (closest to the namespace root) and a deeper one
at prefix depth b, both walks - the backend-interface walk of interfaces.resolve and
the resource walk of resources.resolve, embedded as ancestorScan - return the
shallow ancestor's record and depth: the loop enumerates ancestor prefixes from
longest to shortest and overwrites the running result on every hit, so the
shallowest bound ancestor (here a, which no shallower binding undercuts) wins. -/
theorem c1_rootmost_ancestor_precedence
    (ienv : List String → Option (Option Interfaces.InterfaceRec))
    (renv : List String → Option (Option Resources.ResourceRec))
    (path : List String) (a b : Nat)
    (ra rb : Interfaces.InterfaceRec) (sa sb : Resources.ResourceRec)
    (ha : 1 ≤ a) (hab : a < b) (hb : b < path.length)
    (hia : ienv (path.take a) = some (some ra))
    (hib : ienv (path.take b) = some (some rb))
    (hsa : renv (path.take a) = some (some sa))
    (hsb : renv (path.take b) = some (some sb))
    (himin : ∀ j, 1 ≤ j → j < a → ienv (path.take j) = some none)
    (hrmin : ∀ j, 1 ≤ j → j < a → renv (path.take j) = some none)
    (hiimp : ∀ j, a < j → j < path.length → ienv (path.take j) ≠ none)
    (hrimp : ∀ j, a < j → j < path.length → renv (path.take j) ≠ none) :
    ancestorScan ienv path = .ok (some (a, ra)) ∧
    ancestorScan renv path = .ok (some (a, sa)) := by
  constructor
  · exact ancestorScan_shallowest ienv path a ra ha (by omega) hia himin hiimp
  · exact ancestorScan_shallowest renv path a sa ha (by omega) hsa hrmin hrimp

/-- Witness for C1: on caller path q1.q2.q3 with bindings registered at both q1
(records bA/dA and /srv/resA) and q1.q2 (records bB/dB and /srv/resB), both walks
return the record registered at the shallow ancestor q1. -/
theorem c1_witness :
    ancestorScan ienvTwo ["q1", "q2", "q3"] =
      .ok (some (1, { packageName := "bA", driver := "dA" })) ∧
    ancestorScan renvTwo ["q1", "q2", "q3"] =
      .ok (some (1, { dirname := "/srv/resA" })) :=
  c1_rootmost_ancestor_precedence ienvTwo renvTwo ["q1", "q2", "q3"] 1 2
    { packageName := "bA", driver := "dA" } { packageName := "bB", driver := "dB" }
    { dirname := "/srv/resA" } { dirname := "/srv/resB" }
    (by decide) (by decide) (by decide)
    (by decide) (by decide) (by decide) (by decide)
    (by intro j h1 h2; omega)
    (by intro j h1 h2; omega)
    (by intro j h1 h2
        have h3 : j < 3 := by simpa using h2
        have hj : j = 2 := by omega
        subst hj; decide)
    (by intro j h1 h2
        have h3 : j < 3 := by simpa using h2
        have hj : j = 2 := by omega
        subst hj; decide)

/-- Unfolding str.join over a nonempty tail. -/
theorem joinWith_cons (sep a : String) (l : List String) (h : l ≠ []) :
    joinWith sep (a :: l) = a ++ sep ++ joinWith sep l := by
  cases l with
  | nil => exact absurd rfl h
  | cons b rest => rfl

/-- C2: backend path computation.  When the ancestor walk on caller path
p1...pn finds the authoritative backend binding at prefix depth d with backend
container name B and driver D, interfaces.resolve asks the import-and-getattr
collaborator for attribute pn of the module whose dotted path is B, D, then the
caller's segments strictly between depth d and the final segment - exactly the
spec's backend module path - whenever that middle segment run is nonempty
(d + 1 < n). -/
theorem c2_backend_path_computation {β : Type}
    (env : List String → Option (Option Interfaces.InterfaceRec))
    (loader : String → String → Except PyErr β) (path : List String)
    (d : Nat) (B D : String)
    (hscan : ancestorScan env path = .ok (some (d, { packageName := B, driver := D })))
    (hd : d + 1 < path.length) :
    Interfaces.resolve env loader path =
      loader (backendModulePathSpec B D ((path.drop d).dropLast)) (path.getLastD "") := by
  unfold Interfaces.resolve
  rw [hscan]
  have hlen : (path.drop d).dropLast.length = path.length - d - 1 := by
    simp [List.length_dropLast, List.length_drop]
  have hmid : (path.drop d).dropLast ≠ [] := by
    intro hnil
    rw [hnil] at hlen
    simp at hlen
    omega
  have hstep : backendModulePathSpec B D ((path.drop d).dropLast) =
      B ++ "." ++ D ++ "." ++ joinWith "." ((path.drop d).dropLast) := by
    unfold backendModulePathSpec
    rw [show ([B, D] ++ (path.drop d).dropLast) = B :: D :: (path.drop d).dropLast from rfl]
    rw [joinWith_cons "." B _ (by simp), joinWith_cons "." D _ hmid]
    simp [String.append_assoc]
  rw [hstep]

/-- Witness for C2: the spec scenario.  A backend registered as driver dba for the
generic container gen.db, called from gen.db.connector.insert, resolves to
attribute insert of module db.dba.connector. -/
theorem c2_witness :
    Interfaces.resolve ienvGen (fun m a => .ok (m, a)) ["gen", "db", "connector", "insert"] =
      .ok ("db.dba.connector", "insert") := by
  have h := c2_backend_path_computation ienvGen (fun m a => .ok (m, a))
      ["gen", "db", "connector", "insert"] 2 "db" "dba" rfl (by decide)
  exact h

/-- The endpoint scan of _get_endpoint returns the first default-marked function,
regardless of what precedes (non-default entries) or follows it. -/
theorem scanEndpointsGo_default (pre post : List Struct.EFunc) (F : Struct.EFunc)
    (mtF : Struct.EpMeta) (acc : Option Struct.EFunc)
    (hpre : ∀ g ∈ pre, ∀ mtg, g.meta = some mtg → mtg.default = false)
    (hF : F.meta = some mtF) (hdef : mtF.default = true) :
    Struct.scanEndpointsGo (pre ++ F :: post) acc = some F := by
  revert hpre
  induction pre generalizing acc with
  | nil =>
    intro _
    simp [Struct.scanEndpointsGo, hF, hdef]
  | cons g rest ih =>
    intro hpre
    cases hg : g.meta with
    | none =>
      simp only [List.cons_append, Struct.scanEndpointsGo, hg]
      exact ih acc (fun g2 hg2 => hpre g2 (List.mem_cons_of_mem _ hg2))
    | some mtg =>
      have hgd := hpre g (by simp) mtg hg
      simp only [List.cons_append, Struct.scanEndpointsGo, hg, hgd]
      simp only [Bool.false_eq_true, if_false]
      exact ih (some g) (fun g2 hg2 => hpre g2 (List.mem_cons_of_mem _ hg2))

/-- Stepping through _get_endpoint's try clause: when the imported container
defines no endpoints and its redirect entry for the lowercased method is a
container whose recursive dispatch succeeds, the outer call returns that result. -/
theorem getEndpoint_redirect_container
    (env : List String → Option Struct.SModule) (fl : Nat) (method : String)
    (branch : List String) (mb : Struct.SModule) (tbl : String → Option Struct.RTarget)
    (c : List String) (F : Struct.EFunc)
    (hmb : env branch = some mb)
    (hempty : Struct.directEndpoints mb = [])
    (htbl : mb.redirectTable = some tbl)
    (hct : tbl (pyLower method) = some (.container c))
    (hres : Struct.getEndpoint env fl method c none = .ok F) :
    Struct.getEndpoint env (fl + 1) method branch none = .ok F := by
  simp only [Struct.getEndpoint, hmb, hempty, htbl, hct, Struct.scanEndpointsGo]
  rw [hres]

/-- C3: redirect dispatch.  For a branch importing as a container mb that defines
zero endpoint-tagged functions, _get_endpoint consults mb's local redirect entry for
the (lowercased) request method: a function target is selected directly, and a
container target causes recursion into that container, so a target container mc
whose scan yields a default-marked endpoint F resolves to F. -/
theorem c3_redirect_dispatch
    (env : List String → Option Struct.SModule) (fuel : Nat) (method : String)
    (branch : List String) (mb : Struct.SModule) (tbl : String → Option Struct.RTarget)
    (hmb : env branch = some mb)
    (hempty : Struct.directEndpoints mb = [])
    (htbl : mb.redirectTable = some tbl) :
    (∀ g, tbl (pyLower method) = some (.fn g) →
      Struct.getEndpoint env (fuel + 1) method branch none = .ok g) ∧
    (∀ c mc pre F post mtF,
      tbl (pyLower method) = some (.container c) →
      env c = some mc →
      Struct.directEndpoints mc = pre ++ F :: post →
      (∀ g ∈ pre, ∀ mtg, g.meta = some mtg → mtg.default = false) →
      F.meta = some mtF → mtF.default = true →
      Struct.getEndpoint env (fuel + 2) method branch none = .ok F) := by
  constructor
  · intro g hfn
    simp [Struct.getEndpoint, hmb, hempty, htbl, hfn, Struct.scanEndpointsGo]
  · intro c mc pre F post mtF hct hmc hsplit hpre hFm hdef
    have hinner : Struct.getEndpoint env (fuel + 1) method c none = .ok F := by
      have hscan := scanEndpointsGo_default pre post F mtF none hpre hFm hdef
      simp [Struct.getEndpoint, hmc, hsplit, hscan]
    exact getEndpoint_redirect_container env (fuel + 1) method branch mb tbl c F
      hmb hempty htbl hct hinner

/-- Witness for C3: dispatching GET on container r1, which defines no endpoints and
redirects get to container t1, selects t1's default endpoint function f. -/
theorem c3_witness :
    Struct.getEndpoint envRedir 2 "GET" ["r1"] none = .ok fDefault := by
  exact (c3_redirect_dispatch envRedir 0 "GET" ["r1"] mRedir tblRedirz rfl rfl rfl).2
    ["t1"] mTarget [] fDefault [] { methods := ["GET"], default := true }
    (by decide) rfl rfl (by intro g hg; simp at hg) rfl rfl

/-- C4: method gating.  For a branch whose final segment names an endpoint-tagged
function on the parent container (the branch itself does not import as a container),
_get_endpoint returns the function when the request method is in its accepted
methods, raises MethodNotAllowed when the function exists but the method is not
accepted, and raises AttributeError when no such function-valued attribute with
endpoint metadata exists. -/
theorem c4_method_gating
    (env : List String → Option Struct.SModule) (fuel : Nat) (method : String)
    (branch : List String) (m : Struct.SModule)
    (hbr : env branch = none)
    (hparent : env branch.dropLast = some m) :
    (∀ f mt, Struct.getattrFn m (branch.getLastD "") = some f → f.meta = some mt →
      ((method ∈ mt.methods → Struct.getEndpoint env (fuel + 1) method branch none = .ok f) ∧
       (method ∉ mt.methods →
         Struct.getEndpoint env (fuel + 1) method branch none =
           .error (.methodNotAllowed method)))) ∧
    (Struct.getattrFn m (branch.getLastD "") = none →
      Struct.getEndpoint env (fuel + 1) method branch none =
        .error (.attributeError ("Could not find endpoint " ++ branch.getLastD "" ++
                                 " with HTTP request method " ++ method))) := by
  have hmain : Struct.getEndpoint env (fuel + 1) method branch none =
      Struct.exceptBody m (branch.getLastD "") method := by
    simp [Struct.getEndpoint, hbr, hparent]
  constructor
  · intro f mt hf hmt
    have hbody : Struct.exceptBody m (branch.getLastD "") method =
        if method ∈ mt.methods then Except.ok f
        else Except.error (PyErr.methodNotAllowed method) := by
      simp only [Struct.exceptBody, hf, hmt]
    constructor
    · intro hin
      rw [hmain, hbody, if_pos hin]
    · intro hout
      rw [hmain, hbody, if_neg hout]
  · intro hnone
    rw [hmain]
    simp only [Struct.exceptBody, hnone]

/-- Witness for C4: the endpoint p1.m1.f is registered only for GET; dispatching it
with POST raises MethodNotAllowed, while GET selects it. -/
theorem c4_witness :
    Struct.getEndpoint envGate 1 "POST" ["p1", "m1", "f"] none =
      .error (.methodNotAllowed "POST") ∧
    Struct.getEndpoint envGate 1 "GET" ["p1", "m1", "f"] none = .ok fGetOnly := by
  constructor
  · exact ((c4_method_gating envGate 0 "POST" ["p1", "m1", "f"] mParent rfl rfl).1
      fGetOnly { methods := ["GET"], default := false } rfl rfl).2 (by decide)
  · exact ((c4_method_gating envGate 0 "GET" ["p1", "m1", "f"] mParent rfl rfl).1
      fGetOnly { methods := ["GET"], default := false } rfl rfl).1 (by decide)

/-- C5: directory configuration loading, evaluated at the failing input.  The claim
states every recognized-extension file is successfully parsed; on a directory
containing a.json the comprehension instead crashes: _load reaches json.load(path)
with the path string in place of a file object, which raises AttributeError.  On a
directory with only YAML files, other-extension files and subdirectories the claim's
mapping does come out: the yaml file is parsed and keyed by base name, the txt file
and the subdirectory are ignored. -/
theorem c5_json_file_breaks_load_dir :
    Conf.loadDirEntries yamlParseLeaf
        [{ name := "a.json", isFile := true, content := "null" }] =
      .error (.attributeError "str object has no attribute read") ∧
    Conf.loadDirEntries yamlParseLeaf
        [{ name := "b.yaml", isFile := true, content := "greet" },
         { name := "notes.txt", isFile := true, content := "t" },
         { name := "sub", isFile := false, content := "" }] =
      .ok [("b", .leaf "greet")] := by
  constructor
  · rfl
  · rfl

/-- C6: configuration lookup.  On a nonempty dotted path, conf._traverse descends
the tree one segment at a time: it returns exactly the value the specification-side
descent reaches when every segment is present, and it raises an exception (KeyError
for an absent dict key, TypeError for subscripting a non-container leaf) exactly
when the specification-side descent is undefined. -/
theorem c6_config_lookup (t : Conf.Tree) (segs : List String) (hne : segs ≠ []) :
    (∀ v, Conf.traverse t segs = .ok v ↔ Conf.lookupSpec t segs = some v) ∧
    (Conf.lookupSpec t segs = none → ∃ e, Conf.traverse t segs = .error e) := by
  revert hne
  induction segs generalizing t with
  | nil => intro hne; exact absurd rfl hne
  | cons a rest ih =>
    intro _
    cases rest with
    | nil =>
      cases t with
      | node kvs =>
        cases hl : kvs.lookup a with
        | some u =>
          constructor
          · intro v
            simp [Conf.traverse, Conf.pyIndex, Conf.lookupSpec, hl]
          · intro habs
            simp [Conf.lookupSpec, hl] at habs
        | none =>
          constructor
          · intro v
            simp [Conf.traverse, Conf.pyIndex, Conf.lookupSpec, hl]
          · intro _
            exact ⟨.keyError a, by simp [Conf.traverse, Conf.pyIndex, hl]⟩
      | leaf s =>
        constructor
        · intro v
          simp [Conf.traverse, Conf.pyIndex, Conf.lookupSpec]
        · intro _
          exact ⟨.typeError "string indices must be integers", by
            simp [Conf.traverse, Conf.pyIndex]⟩
    | cons b rest2 =>
      have tcc : ∀ t2 : Conf.Tree, Conf.traverse t2 (a :: b :: rest2) =
          (Conf.pyIndex t2 a).bind (fun t3 => Conf.traverse t3 (b :: rest2)) :=
        fun _ => rfl
      cases t with
      | node kvs =>
        cases hl : kvs.lookup a with
        | some u =>
          have hpy : Conf.pyIndex (Conf.Tree.node kvs) a = .ok u := by
            simp [Conf.pyIndex, hl]
          have hbind : Conf.traverse (Conf.Tree.node kvs) (a :: b :: rest2) =
              Conf.traverse u (b :: rest2) := by
            rw [tcc, hpy]
            rfl
          have hspec : Conf.lookupSpec (Conf.Tree.node kvs) (a :: b :: rest2) =
              Conf.lookupSpec u (b :: rest2) := by
            simp [Conf.lookupSpec, hl]
          rw [hbind, hspec]
          exact ih u (by simp)
        | none =>
          have hpy : Conf.pyIndex (Conf.Tree.node kvs) a = .error (.keyError a) := by
            simp [Conf.pyIndex, hl]
          have hbind : Conf.traverse (Conf.Tree.node kvs) (a :: b :: rest2) =
              .error (.keyError a) := by
            rw [tcc, hpy]
            rfl
          have hspec : Conf.lookupSpec (Conf.Tree.node kvs) (a :: b :: rest2) = none := by
            simp [Conf.lookupSpec, hl]
          rw [hbind, hspec]
          constructor
          · intro v
            simp
          · intro _
            exact ⟨.keyError a, rfl⟩
      | leaf s =>
        have hbind : Conf.traverse (Conf.Tree.leaf s) (a :: b :: rest2) =
            .error (.typeError "string indices must be integers") := by
          rw [tcc]
          rfl
        have hspec : Conf.lookupSpec (Conf.Tree.leaf s) (a :: b :: rest2) = none := rfl
        rw [hbind, hspec]
        constructor
        · intro v
          simp
        · intro _
          exact ⟨.typeError "string indices must be integers", rfl⟩

/-- Witness for C6: the site.yaml scenario.  Looking up site.greet.message in the
tree of a directory whose site.yaml holds greet.message = Hello! returns Hello!,
and looking up the absent site.missing fails. -/
theorem c6_witness :
    Conf.lookupSpec siteTree ["site", "greet", "message"] = some (.leaf "Hello!") ∧
    Conf.traverse siteTree ["site", "greet", "message"] = .ok (.leaf "Hello!") ∧
    (∃ e, Conf.traverse siteTree ["site", "missing"] = .error e) := by
  refine ⟨rfl, ?_, ?_⟩
  · exact ((c6_config_lookup siteTree ["site", "greet", "message"] (by simp)).1
      (.leaf "Hello!")).mpr rfl
  · exact (c6_config_lookup siteTree ["site", "missing"] (by simp)).2 rfl

/-- The walk reports no binding when every walked prefix imports fine and none
carries the attribute. -/
theorem ancestorScan_noBinding {α : Type} (env : List String → Option (Option α))
    (path : List String)
    (hall : ∀ j, 1 ≤ j → j < path.length → env (path.take j) = some none) :
    ancestorScan env path = .ok none := by
  unfold ancestorScan
  apply ancestorScanGo_allNone
  intro i hi
  rw [pyRangeRev, List.mem_reverse, List.mem_range'_1] at hi
  exact hall i hi.1 (by omega)

/-- C7 (amended): the two resolvers fail differently when no ancestor carries the
requested binding.  resources.resolve raises an explicit ModuleNotFoundError whose
message says it cannot locate the caller's resource directory; interfaces.resolve
performs no such check and instead raises the TypeError produced by subscripting the
still-None target. -/
theorem c7_missing_binding_failures {β : Type}
    (ienv : List String → Option (Option Interfaces.InterfaceRec))
    (renv : List String → Option (Option Resources.ResourceRec))
    (loader : String → String → Except PyErr β)
    (path : List String) (objRepr : String) (sub : Option String)
    (hi : ∀ j, 1 ≤ j → j < path.length → ienv (path.take j) = some none)
    (hr : ∀ j, 1 ≤ j → j < path.length → renv (path.take j) = some none) :
    Interfaces.resolve ienv loader path =
      .error (.typeError "NoneType object is not subscriptable") ∧
    Resources.resolve renv objRepr path sub =
      .error (.moduleNotFoundError ("Cannot locate resource directory of " ++ objRepr)) := by
  constructor
  · unfold Interfaces.resolve
    rw [ancestorScan_noBinding ienv path hi]
  · unfold Resources.resolve
    rw [ancestorScan_noBinding renv path hr]

/-- Counterexample for C7: with every ancestor of p1.p2.p3 importable and none
carrying a backend binding, interfaces.resolve does not fail with a dedicated
missing-binding error: it raises TypeError (subscripting None), the generic crash,
rather than any BindingNotFound-style report. -/
theorem c7_counterexample :
    Interfaces.resolve ienvNone (fun m a => .ok (m, a)) ["p1", "p2", "p3"] =
      .error (.typeError "NoneType object is not subscriptable") := rfl

/-- Witness for C7 (amended): the same no-binding layout, evaluated concretely for
both resolvers. -/
theorem c7_witness :
    Interfaces.resolve ienvNone (fun m a => .ok (m, a)) ["p1", "p2", "p3"] =
      .error (.typeError "NoneType object is not subscriptable") ∧
    Resources.resolve renvNone "functionRepr" ["p1", "p2", "p3"] (some "input.txt") =
      .error (.moduleNotFoundError "Cannot locate resource directory of functionRepr") := by
  have h := c7_missing_binding_failures ienvNone renvNone (fun m a => .ok (m, a))
      ["p1", "p2", "p3"] "functionRepr" (some "input.txt")
      (by intro j h1 h2
          have h3 : j < 3 := by simpa using h2
          have hj : j = 1 ∨ j = 2 := by omega
          rcases hj with hj | hj <;> subst hj <;> decide)
      (by intro j h1 h2
          have h3 : j < 3 := by simpa using h2
          have hj : j = 1 ∨ j = 2 := by omega
          rcases hj with hj | hj <;> subst hj <;> decide)
  exact h

/-- Counterexample for C8: re-registering a package binding does not replace the
previous record.  Linking a module first with path pathA and then with path pathB
leaves the original record (packages.link only stores when the attribute is
absent), while the claim's last-write-wins would require the pathB record. -/
theorem c8_counterexample :
    Packages.link (Packages.link none (some "pathA") none none none none none)
        (some "pathB") none none none none none =
      some { bound := false, path := some "pathA", struct := none, resources := none,
             conf := none, privateDir := none, templates := none } ∧
    (some { bound := false, path := some "pathA", struct := none, resources := none,
            conf := none, privateDir := none, templates := none } : Option Packages.PackageRec) ≠
      some { bound := false, path := some "pathB", struct := none, resources := none,
             conf := none, privateDir := none, templates := none } := by
  constructor
  · rfl
  · decide

/-- C8 (amended): re-registration semantics per binding kind.  interfaces.bind and
resources.bind store their record unconditionally, so a second registration
completely replaces the first (the result is the same as binding onto a module with
no prior record); packages.link only stores when no record exists, so on an
already-linked module it is a silent no-op and the first write wins. -/
theorem c8_rebind_semantics :
    (∀ (lp lp2 : Option String) (bp bp2 bn bn2 : Bool) (b1 d1 b2 d2 : String)
        (c : Option Interfaces.InterfaceRec),
      Interfaces.bind lp bp bn b2 d2 (Interfaces.bind lp2 bp2 bn2 b1 d1 c) =
        Interfaces.bind lp bp bn b2 d2 none) ∧
    (∀ (p q : Resources.ResourceRec) (c : Option Resources.ResourceRec),
      Resources.bind q (Resources.bind p c) = some q) ∧
    (∀ (r : Packages.PackageRec) (a b c2 d e f : Option String),
      Packages.link (some r) a b c2 d e f = some r) :=
  ⟨fun _ _ _ _ _ _ _ _ _ _ _ => rfl, fun _ _ _ => rfl, fun _ _ _ _ _ _ _ => rfl⟩

/-- Witness for C8 (amended): concrete double registrations for all three kinds. -/
theorem c8_witness :
    Interfaces.bind none false false "b2" "d2"
        (Interfaces.bind none false false "b1" "d1" none) =
      Interfaces.bind none false false "b2" "d2" none ∧
    Resources.bind { dirname := "/r2" } (Resources.bind { dirname := "/r1" } none) =
      some { dirname := "/r2" } ∧
    Packages.link (some { bound := false, path := some "pathA", struct := none,
                          resources := none, conf := none, privateDir := none,
                          templates := none })
        (some "pathB") none none none none none =
      some { bound := false, path := some "pathA", struct := none, resources := none,
             conf := none, privateDir := none, templates := none } :=
  ⟨c8_rebind_semantics.1 none none false false false false "b1" "d1" "b2" "d2" none,
   c8_rebind_semantics.2.1 { dirname := "/r1" } { dirname := "/r2" } none,
   c8_rebind_semantics.2.2 { bound := false, path := some "pathA", struct := none,
                             resources := none, conf := none, privateDir := none,
                             templates := none }
     (some "pathB") none none none none none⟩

/-- C9: nested package exclusion during discovery, evaluated on a directory tree
containing a package root /site/a and a nested marker directory /site/a/b.  The
guard of packages.bind tests whether the walked root is a substring of each
already-collected root - the operands are reversed - so the nested directory
/site/a/b passes the guard and is registered as well, where the claim (and spec)
require only /site/a to be registered. -/
theorem c9_nested_package_registered :
    Packages.packageRootDirs
        [("/site/", []), ("/site/a", ["package.py"]), ("/site/a/b", ["package.py"])] =
      ["/site/a", "/site/a/b"] ∧
    Packages.packageRootDirs
        [("/site/", []), ("/site/a", ["package.py"]), ("/site/a/b", ["package.py"])] ≠
      ["/site/a"] := by
  constructor
  · rfl
  · decide

/-- Each step of struct.redirect yields a table, and the accumulated table maps a
key to the shared target exactly when some processed method lowercases to it,
otherwise to the prior table's entry. -/
theorem redirect_fold_some (methods : List String) (target : Struct.RTarget)
    (tbl : String → Option Struct.RTarget) :
    ∃ res, Struct.redirect methods target (some tbl) = some res ∧
      (∀ k, res k = if k ∈ methods.map pyLower then some target else tbl k) := by
  induction methods generalizing tbl with
  | nil => exact ⟨tbl, rfl, by simp⟩
  | cons m rest ih =>
    obtain ⟨res, h1, h2⟩ := ih (fun k => if k = pyLower m then some target else tbl k)
    refine ⟨res, ?_, ?_⟩
    · exact h1
    · intro k
      rw [h2 k]
      by_cases hk : k ∈ rest.map pyLower
      · simp [hk]
      · by_cases hk2 : k = pyLower m
        · simp [hk, hk2]
        · simp [hk, hk2]

/-- C10: redirect registration merges per method.  struct.redirect on methods M,
target T and a module whose redirect table is tbl produces a table that maps each
lowercased method of M to T and leaves every other key's entry exactly as in tbl
(a per-method merge, not a whole-table replacement). -/
theorem c10_redirect_merge (methods : List String) (tbl : String → Option Struct.RTarget)
    (target : Struct.RTarget) :
    ∃ res, Struct.redirect methods target (some tbl) = some res ∧
      (∀ m ∈ methods, res (pyLower m) = some target) ∧
      (∀ k, k ∉ methods.map pyLower → res k = tbl k) := by
  obtain ⟨res, h1, h2⟩ := redirect_fold_some methods target tbl
  refine ⟨res, h1, ?_, ?_⟩
  · intro m hm
    rw [h2]
    have : pyLower m ∈ methods.map pyLower := List.mem_map_of_mem pyLower hm
    simp [this]
  · intro k hk
    rw [h2]
    simp [hk]

/-- Witness for C10: registering a GET redirect on a module whose table already
holds a post entry sets the get entry and leaves the post entry unchanged. -/
theorem c10_witness :
    ∃ res, Struct.redirect ["GET"] (.container ["t1"]) (some tblPre) = some res ∧
      res "get" = some (.container ["t1"]) ∧ res "post" = tblPre "post" := by
  obtain ⟨res, h1, h2, h3⟩ := c10_redirect_merge ["GET"] tblPre (.container ["t1"])
  exact ⟨res, h1, h2 "GET" (by simp), h3 "post" (by decide)⟩
